import Mathlib

/-!
Shallow embedding of the DefectDojo triage VS Code extension
(triage store, submit flow, finding aggregation, dependency locator),
translated from the TypeScript sources, together with theorems checking
the natural-language specification against it.

Conventions used throughout the embedding:
* a JavaScript value that may be `undefined` is an `Option`;
* JS truthiness of an optional string is "present and non-empty",
  of an optional boolean it is "present and true";
* the `TriageStatus` string union is kept as `String` (its runtime type);
* `Date.now` style timestamps are an abstract `Nat` passed in by the caller;
* a JS `Map` is an insertion-ordered association list (`Map.set` on an
  existing key updates the value in place, otherwise appends).
-/

namespace DD

/-- JS truthiness of an optional boolean: `undefined` and `false` are falsy. -/
def truthyB : Option Bool → Bool
  | some true => true
  | _ => false

/-- JS truthiness of an optional string: `undefined` and `""` are falsy. -/
def truthyS : Option String → Bool
  | some s => s != ""
  | none => false

/-- JS `a || b` on optional strings (first operand wins when truthy). -/
def jsOrS (a : Option String) (b : String) : String :=
  if truthyS a then a.getD "" else b

/-- TriageData (types.ts): every field is optional.  `status` is the runtime
string of the `TriageStatus` union (`"False positive" | "Out Of Scope" |
"Verified" | "Close"`, with `""` reachable from the webview). -/
structure TriageData where
  impact : Option String := none
  mitigation : Option String := none
  status : Option String := none
  submitted : Option Bool := none
  submittedAt : Option Nat := none
  modified : Option Bool := none
  originalImpact : Option String := none
  originalMitigation : Option String := none
  originalStatus : Option String := none
deriving DecidableEq, Repr

/-- The empty triage record (JS `{}` default used by the update operations). -/
def emptyTriage : TriageData := {}

/-- utils.ts `isTriageModified`: false unless `submitted` is truthy and
`originalImpact` is truthy (note: truthiness, so a frozen empty impact also
short-circuits to false); otherwise true iff some editable field differs from
its frozen snapshot (JS `!==` on possibly-undefined fields is `≠` on `Option`). -/
def isTriageModified (t : TriageData) : Bool :=
  if !truthyB t.submitted || !truthyS t.originalImpact then false
  else
    decide (t.impact ≠ t.originalImpact) ||
    decide (t.mitigation ≠ t.originalMitigation) ||
    decide (t.status ≠ t.originalStatus)

/-- JS whitespace (`\s` of the regexes and `String.prototype.trim`), over the
ASCII range the extension's inputs use. -/
def isWS (c : Char) : Bool :=
  c == ' ' || c == '\t' || c == '\n' || c == '\r' || c == '\x0b' || c == '\x0c'

/-- JS `String.prototype.trim`, modeled over the character list so that it is
kernel-evaluable. -/
def jsTrim (s : String) : String :=
  String.mk (((s.data.dropWhile isWS).reverse.dropWhile isWS).reverse)

/-- utils.ts `validateTriageData`: returns `isValid` plus the error list.
The argument may be `undefined` (record absent from the store). -/
def validateTriageData (triage : Option TriageData) : Bool × List String :=
  match triage with
  | none => (false, ["Triage data not found"])
  | some t =>
    let e1 : List String :=
      if !truthyS t.impact || jsTrim (t.impact.getD "") == "" then ["Impact is required"] else []
    let e2 : List String :=
      if !truthyS t.mitigation || jsTrim (t.mitigation.getD "") == "" then ["Mitigation is required"] else []
    let e3 : List String :=
      if !truthyS t.status then ["Status is required"] else []
    let errors := e1 ++ e2 ++ e3
    (errors.length == 0, errors)

/-- Backing collection of the `TriageStore` singleton (triageStore.ts):
a `Map<number, TriageData>`, modeled as an insertion-ordered association list. -/
structure Store where
  entries : List (Nat × TriageData)
deriving DecidableEq, Repr

/-- Lookup in the insertion-ordered map (JS `Map.get`). -/
def getEntries : List (Nat × TriageData) → Nat → Option TriageData
  | [], _ => none
  | (k, v) :: rest, i => if k == i then some v else getEntries rest i

/-- Update in the insertion-ordered map (JS `Map.set`): replaces the value at
an existing key in place, otherwise appends a new entry. -/
def setEntries : List (Nat × TriageData) → Nat → TriageData → List (Nat × TriageData)
  | [], i, d => [(i, d)]
  | (k, v) :: rest, i, d => if k == i then (k, d) :: rest else (k, v) :: setEntries rest i d

/-- TriageStore `get`. -/
def Store.read (s : Store) (findingId : Nat) : Option TriageData :=
  getEntries s.entries findingId

/-- TriageStore `set`. -/
def Store.write (s : Store) (findingId : Nat) (data : TriageData) : Store :=
  ⟨setEntries s.entries findingId data⟩

/-- The empty store (initial state of the module-level singleton). -/
def Store.empty : Store := ⟨[]⟩

/-- TriageStore `updateImpact`: reads the current record (or an empty default),
sets `impact`, and only when the old record was submitted (truthy) and had a
defined `originalImpact` recomputes `modified` on the new record. -/
def updateImpact (s : Store) (findingId : Nat) (impact : String) : Store :=
  let triage := (s.read findingId).getD {}
  let newTriage : TriageData := { triage with impact := some impact }
  let newTriage :=
    if truthyB triage.submitted && triage.originalImpact.isSome then
      { newTriage with modified := some (isTriageModified newTriage) }
    else newTriage
  s.write findingId newTriage

/-- TriageStore `updateMitigation` (same shape, keyed on `originalMitigation`). -/
def updateMitigation (s : Store) (findingId : Nat) (mitigation : String) : Store :=
  let triage := (s.read findingId).getD {}
  let newTriage : TriageData := { triage with mitigation := some mitigation }
  let newTriage :=
    if truthyB triage.submitted && triage.originalMitigation.isSome then
      { newTriage with modified := some (isTriageModified newTriage) }
    else newTriage
  s.write findingId newTriage

/-- TriageStore `updateStatus` (same shape, keyed on `originalStatus`).
The webview may deliver `""`; the parameter is the raw optional string. -/
def updateStatus (s : Store) (findingId : Nat) (status : Option String) : Store :=
  let triage := (s.read findingId).getD {}
  let newTriage : TriageData := { triage with status := status }
  let newTriage :=
    if truthyB triage.submitted && triage.originalStatus.isSome then
      { newTriage with modified := some (isTriageModified newTriage) }
    else newTriage
  s.write findingId newTriage

/-- TriageStore `markAsSubmitted`: no-op when the record is absent; otherwise
sets `submitted`, stamps `submittedAt` with the current time, clears `modified`
and freezes the three editable fields into the snapshot fields. -/
def markAsSubmitted (s : Store) (findingId : Nat) (now : Nat) : Store :=
  match s.read findingId with
  | none => s
  | some triage =>
    s.write findingId
      { triage with
        submitted := some true
        submittedAt := some now
        modified := some false
        originalImpact := triage.impact
        originalMitigation := triage.mitigation
        originalStatus := triage.status }

/-- TriageStore `clear`. -/
def clearStore (_ : Store) : Store := ⟨[]⟩

/-- One store operation, for reachability statements over operation sequences. -/
inductive Op where
  | updImpact (id : Nat) (v : String)
  | updMitigation (id : Nat) (v : String)
  | updStatus (id : Nat) (v : Option String)
  | submit (id : Nat) (now : Nat)
  | clearAll
deriving DecidableEq, Repr

/-- Apply one operation to the store. -/
def applyOp (s : Store) : Op → Store
  | .updImpact id v => updateImpact s id v
  | .updMitigation id v => updateMitigation s id v
  | .updStatus id v => updateStatus s id v
  | .submit id now => markAsSubmitted s id now
  | .clearAll => clearStore s

/-- Run an operation sequence from the empty store. -/
def runOps (ops : List Op) : Store :=
  ops.foldl applyOp Store.empty

/-- One value of the JSON patch body built by `DefectDojoClient.updateFinding`. -/
inductive Value where
  | str (s : String)
  | bool (b : Bool)
deriving DecidableEq, Repr

/-- defectDojoClient.ts `updateFinding` request payload (`updateData`): the two
texts, then the boolean flags assigned by the status if/else-if chain, as an
ordered field-assignment list (JS object keys keep insertion order). -/
def buildUpdateData (impact mitigation status : String) : List (String × Value) :=
  [("impact", Value.str impact), ("mitigation", Value.str mitigation)] ++
  (if status == "Verified" then
    [("verified", Value.bool true), ("active", Value.bool true),
     ("false_p", Value.bool false), ("out_of_scope", Value.bool false)]
  else if status == "False positive" then
    [("false_p", Value.bool true), ("active", Value.bool false),
     ("out_of_scope", Value.bool false)]
  else if status == "Out Of Scope" then
    [("out_of_scope", Value.bool true), ("active", Value.bool false),
     ("false_p", Value.bool false), ("push_to_jira", Value.bool true)]
  else if status == "Close" then
    [("verified", Value.bool false), ("active", Value.bool false),
     ("false_p", Value.bool false), ("out_of_scope", Value.bool false)]
  else [])

/-- Invariant over a store: every stored record that is not submitted (in the
JS truthiness sense) is also not modified. -/
def UnsubmittedUnmodified (s : Store) : Prop :=
  ∀ id t, s.read id = some t → truthyB t.submitted = false → truthyB t.modified = false

/-- Finding (types.ts), together with the Dependency Track runtime extras
`component_name`/`component_version` that the aggregator reads from the
open-ended field bag; recursive because `_originalFindings` stores the
pre-aggregation Finding records.  `severity` is kept as its runtime string
(the aggregator applies truthiness to it). -/
inductive Finding where
  | mk
    (id : Nat) (title : String) (description : String) (severity : String)
    (cwe : Option Nat) (url : String) (file_path : String) (line : Option Nat)
    (active : Bool) (verified : Bool) (duplicate : Bool) (false_p : Bool)
    (risk_accepted : Bool) (test : Nat) (test_type : Nat)
    (component_name : Option String) (component_version : Option String)
    (aggregatedFindingIds : Option (List Nat))
    (isAggregated : Option Bool)
    (originalFindings : Option (List Finding))
deriving Repr

def Finding.id : Finding → Nat
  | .mk i .. => i

def Finding.title : Finding → String
  | .mk _ t .. => t

def Finding.description : Finding → String
  | .mk _ _ d .. => d

def Finding.severity : Finding → String
  | .mk _ _ _ sv .. => sv

def Finding.file_path : Finding → String
  | .mk _ _ _ _ _ _ fp .. => fp

def Finding.component_name : Finding → Option String
  | .mk _ _ _ _ _ _ _ _ _ _ _ _ _ _ _ cn .. => cn

def Finding.component_version : Finding → Option String
  | .mk _ _ _ _ _ _ _ _ _ _ _ _ _ _ _ _ cv .. => cv

def Finding.aggregatedFindingIds : Finding → Option (List Nat)
  | .mk _ _ _ _ _ _ _ _ _ _ _ _ _ _ _ _ _ ai .. => ai

def Finding.isAggregated : Finding → Option Bool
  | .mk _ _ _ _ _ _ _ _ _ _ _ _ _ _ _ _ _ _ ia .. => ia

def Finding.originalFindings : Finding → Option (List Finding)
  | .mk _ _ _ _ _ _ _ _ _ _ _ _ _ _ _ _ _ _ _ og => og

/-- One observable call of the submit-triage flow against its collaborators:
a client.updateFinding patch (with its payload) or a
triageStore.markAsSubmitted call. -/
inductive SubmitEvent where
  | patch (id : Nat) (impact mitigation status : String)
  | mark (id : Nat)
deriving DecidableEq, Repr

/-- registerCommands.ts `registerSubmitTriageCommand` (the store/network
portion): after validateTriageData passes and impact/mitigation/status are
truthy, iterate `_aggregatedFindingIds || [finding.id]`, issuing one
client.updateFinding patch per id, each followed by
triageStore.markAsSubmitted on that id.  Returns the ordered call trace and
the resulting store; `none` models the early-return warning paths. -/
def submitTriageFlow (finding : Finding) (store : Store) (now : Nat) :
    Option (List SubmitEvent × Store) :=
  let triage := store.read finding.id
  if !(validateTriageData triage).1 then none
  else
    match triage with
    | none => none
    | some t =>
      if !truthyS t.impact || !truthyS t.mitigation || !truthyS t.status then none
      else
        let impact := t.impact.getD ""
        let mitigation := t.mitigation.getD ""
        let status := t.status.getD ""
        let originalFindingIds := finding.aggregatedFindingIds.getD [finding.id]
        some (originalFindingIds.foldl
          (fun acc id =>
            (acc.1 ++ [SubmitEvent.patch id impact mitigation status, SubmitEvent.mark id],
             markAsSubmitted acc.2 id now))
          ([], store))

instance : Inhabited Finding :=
  ⟨Finding.mk 0 "" "" "" none "" "" none false false false false false 0 0
    none none none none none⟩

/-- JS `a || b || c` on two optional strings with a string default
(truthiness chain, as in the aggregator's component-name/version fallbacks). -/
def jsOr2 (a b : Option String) (c : String) : String :=
  if truthyS a then a.getD "" else if truthyS b then b.getD "" else c

/-- Character class `[^\s:]` of the component regex (a "name" character). -/
def isNameChar (c : Char) : Bool := !(isWS c || c == ':')

/-- Character class `[\d.]` opening the version pattern. -/
def isVerChar (c : Char) : Bool := c.isDigit || c == '.'

/-- Character class `[a-zA-Z0-9.-]` of the version pre-release suffix. -/
def isSufChar (c : Char) : Bool :=
  (c.isAlpha && c.toNat < 128) || c.isDigit || c == '.' || c == '-'

/-- Capture of the version pattern `([\d.]+(?:-[a-zA-Z0-9.-]+)?(?:-SNAPSHOT)?)`
at a position whose first character is in `[\d.]`: the maximal `[\d.]` run,
then optionally a dash plus a maximal suffix run.  (The trailing
`(?:-SNAPSHOT)?` alternative is dead: whenever a dash follows, the first
optional group already consumes it, since every character of "SNAPSHOT" is in
its class.) -/
def verCapture (cs : List Char) : List Char :=
  let run := cs.takeWhile isVerChar
  let rest := cs.drop run.length
  match rest with
  | '-' :: r2 =>
    let suf := r2.takeWhile isSufChar
    if suf.isEmpty then run else run ++ '-' :: suf
  | _ => run

/-- Leftmost match of the version pattern in a string (used on the second
capture group of the component regex). -/
def findVersion : List Char → Option (List Char)
  | [] => none
  | c :: rest => if isVerChar c then some (verCapture (c :: rest)) else findVersion rest

/-- Lowercasing used for the case-insensitive regex comparisons. -/
def lcList (cs : List Char) : List Char := cs.map Char.toLower

/-- Match of `(?:Component:\s*)?([^\s:]+)(?::([^\s]+))?` (flag `i`) at a
position whose first character is a name character: prefer the
`Component:`-prefixed alternative (it can only contribute when a nonempty
name follows the whitespace), otherwise take the maximal name run; then the
optional `:version` group takes a nonempty maximal non-whitespace run after a
colon.  Returns the two capture groups. -/
def matchCompAt (cs : List Char) : List Char × Option (List Char) :=
  let viaPre : Option (List Char × List Char) :=
    if lcList (cs.take 10) = "component:".data then
      let r2 := (cs.drop 10).dropWhile isWS
      let nm := r2.takeWhile isNameChar
      if nm.isEmpty then none else some (nm, r2.drop nm.length)
    else none
  let nmRest : List Char × List Char :=
    match viaPre with
    | some p => p
    | none => (cs.takeWhile isNameChar, cs.drop (cs.takeWhile isNameChar).length)
  let ver : Option (List Char) :=
    match nmRest.2 with
    | ':' :: r2 =>
      let v := r2.takeWhile (fun c => !isWS c)
      if v.isEmpty then none else some v
    | _ => none
  (nmRest.1, ver)

/-- Leftmost match of the component regex over the whole title: the first
position bearing a name character (the optional `Component:` prefix also
starts with one, so this is exactly where the regex can first match). -/
def matchComp : List Char → Option (List Char × Option (List Char))
  | [] => none
  | c :: rest =>
    if isNameChar c then some (matchCompAt (c :: rest)) else matchComp rest

/-- Leftmost match of `name[\s:]+<version pattern>` (case sensitive, the
fallback search for a version appearing after the component name elsewhere in
the title); `name` is embedded escaped, hence matched literally. -/
def nameVerSearch (name : List Char) : List Char → Option (List Char)
  | [] => none
  | c :: rest =>
    (if name.isPrefixOf (c :: rest) then
      let after := (c :: rest).drop name.length
      let seps := after.takeWhile (fun ch => isWS ch || ch == ':')
      if seps.isEmpty then none
      else
        let r2 := after.drop seps.length
        match r2 with
        | c2 :: _ => if isVerChar c2 then some (verCapture r2) else none
        | [] => none
    else none).orElse (fun _ => nameVerSearch name rest)

/-- Result of `extractComponentInfo` (utils.ts `ComponentInfo`). -/
structure ComponentInfo where
  name : String
  version : Option String := none
deriving DecidableEq, Repr

/-- utils.ts `extractComponentInfo`: prefer the explicit
component_name/component_version fields (truthiness); otherwise parse the
title with the component regex, resolving the version from the second capture
group or, failing that, from a version pattern following the literal name in
the title (falling back to the component_version field value captured before
the title parse); when the regex cannot match at all, the whole title is the
name with no version; a falsy title yields null. -/
def extractComponentInfo (f : Finding) : Option ComponentInfo :=
  let componentName : Option String :=
    match f.component_name with
    | some s => if s != "" then some s else none
    | none => none
  let componentVersion : Option String :=
    match f.component_version with
    | some s => if s != "" then some s else none
    | none => none
  match componentName with
  | some nm => some { name := nm, version := componentVersion }
  | none =>
    if f.title != "" then
      match matchComp f.title.data with
      | some (nm, verGroup) =>
        let version : Option String :=
          match verGroup with
          | some vchars =>
            match findVersion vchars with
            | some l => some (String.mk l)
            | none => componentVersion
          | none =>
            match nameVerSearch nm f.title.data with
            | some l => some (String.mk l)
            | none => componentVersion
        some { name := String.mk nm, version := version }
      | none => some { name := f.title }
    else none

/-- Location key of the aggregator: `finding.file_path || ''` (with `""`
standing for an absent path, the `||` is the identity). -/
def locKey (f : Finding) : String := f.file_path

/-- One step of filling the aggregator's location `Map` (insertion-ordered:
a new key is appended, an existing key's group grows at the end). -/
def insertGroup : List (String × List Finding) → String → Finding →
    List (String × List Finding)
  | [], k, f => [(k, [f])]
  | (k', fs) :: rest, k, f =>
    if k' == k then (k', fs ++ [f]) :: rest else (k', fs) :: insertGroup rest k f

/-- The aggregator's first loop: group the findings by location key,
preserving first-seen key order and input order inside each group. -/
def groupByLocation (findings : List Finding) : List (String × List Finding) :=
  findings.foldl (fun m f => insertGroup m (locKey f) f) []

/-- Build the composite record of the aggregator's else-branch: the first
member's fields (the source's object spread) with description, title and the
three aggregation fields overwritten (`id` is re-assigned the first member's
own id). -/
def aggregatedFinding (first : Finding) (desc newTitle : String)
    (ids : List Nat) (members : List Finding) : Finding :=
  match first with
  | .mk i _ _ sv cw u fp ln ac vf dp fpos ra te tt cn cv _ _ _ =>
    .mk i newTitle desc sv cw u fp ln ac vf dp fpos ra te tt cn cv
      (some ids) (some true) (some members)

/-- utils.ts `aggregateDependencyTrackFindings`: group by location, pass
singleton groups through unchanged, and emit one composite per larger group
with the generated enumerated description and the `[Aggregated]`-prefixed
title. -/
def aggregateDependencyTrackFindings (findings : List Finding) : List Finding :=
  (groupByLocation findings).map (fun entry =>
    let location := entry.1
    let locationFindings := entry.2
    if locationFindings.length == 1 then locationFindings.headI
    else
      let firstFinding := locationFindings.headI
      let vulnerabilityList := String.intercalate "\n"
        ((locationFindings.enum).map (fun p =>
          let f := p.2
          let componentInfo := extractComponentInfo f
          let componentName := jsOr2 (componentInfo.map ComponentInfo.name)
            f.component_name "Unknown component"
          let componentVersion := jsOr2 (componentInfo.bind ComponentInfo.version)
            f.component_version ""
          let versionText :=
            if componentVersion != "" then " version " ++ componentVersion else ""
          let severity := if f.severity != "" then f.severity else "Unknown"
          let title := if f.title != "" then f.title else "Finding #" ++ toString f.id
          toString (p.1 + 1) ++ ". " ++ title ++ " (" ++ componentName ++ versionText ++
            ", " ++ severity ++ ")"))
      let aggregatedDescription := "Aggregated finding for Location: " ++ location ++
        "\n\n" ++ "Includes the following findings:\n" ++ vulnerabilityList ++
        "\n\n" ++ "Total count: " ++ toString locationFindings.length
      aggregatedFinding firstFinding aggregatedDescription
        ("[Aggregated] " ++ (if firstFinding.title != "" then firstFinding.title else "Finding"))
        (locationFindings.map Finding.id) locationFindings)

/-- Spec-side helper, named from the claim wording: the distinct location
keys of the input in first-seen order. -/
def specFirstSeenKeys : List String → List String
  | [] => []
  | k :: rest => k :: specFirstSeenKeys (rest.filter (fun x => x ≠ k))
termination_by l => l.length
decreasing_by
  simp only [List.length_cons]
  exact Nat.lt_succ_of_le (List.length_filter_le _ _)

/-- Keys of the location map, in insertion order. -/
def keysOf (m : List (String × List Finding)) : List String := m.map Prod.fst

/-- Group stored under a key (first entry wins; keys are unique by
construction). -/
def groupOf : List (String × List Finding) → String → List Finding
  | [], _ => []
  | (k', fs) :: rest, k => if k' == k then fs else groupOf rest k


/-- Lowercasing of a character list (the `i` regex flag / `toLowerCase`). -/
def lcString (s : String) : String := String.mk (lcList s.data)

/-- JS `String.prototype.startsWith`, over character lists. -/
def jsStartsWith (s pre : String) : Bool := pre.data.isPrefixOf s.data

/-- JS `String.prototype.endsWith`, over character lists. -/
def jsEndsWith (s suf : String) : Bool := suf.data.isSuffixOf s.data

/-- Metacharacter class of the source's regex-escaping replace call
(dot, star, plus, question mark, caret, dollar, both braces, parentheses,
pipe, both square brackets and the backslash). -/
def regexMeta (c : Char) : Bool :=
  c == '.' || c == '*' || c == '+' || c == '?' || c == '^' || c == '$' ||
  c == '\x7b' || c == '\x7d' || c == '(' || c == ')' || c == '|' ||
  c == '[' || c == ']' || c == '\\'

/-- The source's regex escaping: prefix a backslash to every metacharacter. -/
def jsEscapeRegex (s : String) : String :=
  String.mk (s.data.flatMap (fun c => if regexMeta c then ['\\', c] else [c]))

/-- JS `content.split("\n")`, over the character list. -/
def splitLinesAux : List Char → List Char → List String
  | [], acc => [String.mk acc.reverse]
  | c :: rest, acc =>
    if c == '\n' then String.mk acc.reverse :: splitLinesAux rest []
    else splitLinesAux rest (c :: acc)

/-- Split a file's content into lines at every newline character. -/
def splitLines (s : String) : List String := splitLinesAux s.data []

/-- Atom of the compiled search regexes; only the constructs those regexes
use (one character from a class — literals become singleton classes — the
Kleene star over a class, the word boundary, the line-start anchor). -/
inductive RAtom where
  | cls (f : Char → Bool)
  | star (f : Char → Bool)
  | wb
  | bol

/-- Word character of the JS `\b` boundary. -/
def isWordChar (c : Char) : Bool := c.isAlphanum || c == '_'

/-- JS word-boundary test between the previous character (none at the line
start) and the next one (none at the end): exactly one side is a word char. -/
def boundaryOk (prev next : Option Char) : Bool :=
  (match prev with | some c => isWordChar c | none => false) !=
  (match next with | some c => isWordChar c | none => false)

/-- Kleene-star loop: try the continuation `k` (the rest of the pattern) at
the current position, else consume one class character and continue. -/
def starLoop (f : Char → Bool) (k : Option Char → List Char → Bool) :
    Option Char → List Char → Bool
  | prev, [] => k prev []
  | prev, c :: cs2 => k prev (c :: cs2) || (f c && starLoop f k (some c) cs2)

/-- Backtracking matcher for an atom list at the current position; `prev` is
the character just before the position (context for `\b` and `^`). -/
def matchFrom : List RAtom → Option Char → List Char → Bool
  | [], _, _ => true
  | .cls f :: rest, _, cs =>
    match cs with
    | [] => false
    | c :: cs2 => f c && matchFrom rest (some c) cs2
  | .star f :: rest, prev, cs => starLoop f (matchFrom rest) prev cs
  | .wb :: rest, prev, cs => boundaryOk prev cs.head? && matchFrom rest prev cs
  | .bol :: rest, prev, cs => prev.isNone && matchFrom rest prev cs

/-- Unanchored search: try a match at every position (JS `RegExp.test`). -/
def searchFrom (atoms : List RAtom) : Option Char → List Char → Bool
  | prev, [] => matchFrom atoms prev []
  | prev, c :: cs2 => matchFrom atoms prev (c :: cs2) || searchFrom atoms (some c) cs2

/-- Test an atom list against a whole line. -/
def regexTest (atoms : List RAtom) (line : List Char) : Bool := searchFrom atoms none line

/-- Literal text as singleton-class atoms. -/
def litAtoms (s : List Char) : List RAtom := s.map (fun c => RAtom.cls (fun x => x == c))

/-- The quote class of the patterns (double or single quote). -/
def quoteCls : RAtom := RAtom.cls (fun c => c == '"' || c == Char.ofNat 39)

/-- Zero or more JS whitespace characters. -/
def wsStar : RAtom := RAtom.star isWS

/-- The lazy dot-star of the lock-file patterns (existence of a match does
not depend on laziness). -/
def anyStar : RAtom := RAtom.star (fun _ => true)

/-- Version-operator class `[<>=~]` (also `[<>=~=]`, the same set). -/
def verOp (c : Char) : Bool := c == '<' || c == '>' || c == '=' || c == '~'

/-- Zero or more characters other than a closing brace (`[^\x7d]*`). -/
def notRBraceStar : RAtom := RAtom.star (fun c => !(c == '\x7d'))

/-- Singleton class for one fixed character. -/
def chCls (c0 : Char) : RAtom := RAtom.cls (fun c => c == c0)

/-- searchInFile `patternsWithVersion` in source order, as compiled-regex
semantics over the lowercased line; the escaped name `nm` and version `vr`
(already lowercased) embed as literal text. -/
def patternsWithVersion (isPackageJson isYarnLock isRequirementsTxt isPoetryLock
    isUvLock isPyProjectToml isLockFile : Bool) (nm vr : List Char) :
    List (List RAtom) :=
  (if isPackageJson then
    [[quoteCls] ++ litAtoms nm ++ [quoteCls, wsStar, chCls ':', wsStar, quoteCls] ++
       litAtoms vr ++ [quoteCls],
     [quoteCls] ++ litAtoms nm ++ [chCls '@'] ++ litAtoms vr ++ [quoteCls]]
   else []) ++
  (if isYarnLock then
    [litAtoms nm ++ [chCls '@'] ++ litAtoms vr,
     [quoteCls] ++ litAtoms nm ++ [chCls '@'] ++ litAtoms vr ++ [quoteCls]]
   else []) ++
  (if isRequirementsTxt then
    [[RAtom.wb] ++ litAtoms nm ++ [wsStar, chCls '=', chCls '=', wsStar] ++
       litAtoms vr ++ [RAtom.wb],
     [RAtom.wb] ++ litAtoms nm ++ [wsStar, RAtom.cls verOp, RAtom.star verOp, wsStar] ++
       litAtoms vr ++ [RAtom.wb]]
   else []) ++
  (if isPoetryLock then
    [litAtoms "name".data ++ [wsStar, chCls '=', wsStar, quoteCls] ++ litAtoms nm ++ [quoteCls],
     [quoteCls] ++ litAtoms nm ++ [quoteCls, wsStar, chCls '=', wsStar, quoteCls] ++
       litAtoms vr ++ [quoteCls],
     litAtoms "version".data ++ [wsStar, chCls '=', wsStar, quoteCls] ++
       litAtoms vr ++ [quoteCls]]
   else []) ++
  (if isUvLock then
    [[quoteCls] ++ litAtoms nm ++ [quoteCls, wsStar, chCls '=', wsStar, chCls '\x7b',
        notRBraceStar] ++ litAtoms "version".data ++ [wsStar, chCls '=', wsStar, quoteCls] ++
       litAtoms vr ++ [quoteCls],
     [quoteCls] ++ litAtoms nm ++ [quoteCls, wsStar, chCls '=', wsStar, quoteCls] ++
       litAtoms vr ++ [quoteCls],
     litAtoms "name".data ++ [wsStar, chCls '=', wsStar, quoteCls] ++ litAtoms nm ++ [quoteCls]]
   else []) ++
  (if isPyProjectToml then
    [[quoteCls] ++ litAtoms nm ++ [quoteCls, wsStar, chCls '=', wsStar, quoteCls] ++
       litAtoms vr ++ [quoteCls],
     litAtoms nm ++ [wsStar, chCls '=', wsStar, quoteCls] ++ litAtoms vr ++ [quoteCls]]
   else []) ++
  (if isLockFile then
    [litAtoms nm ++ [chCls '@'] ++ litAtoms vr,
     [quoteCls] ++ litAtoms nm ++ [quoteCls, anyStar] ++ litAtoms vr,
     litAtoms nm ++ [anyStar, quoteCls] ++ litAtoms vr ++ [quoteCls]]
   else []) ++
  [[quoteCls] ++ litAtoms nm ++ [quoteCls, wsStar, chCls ':', wsStar, quoteCls] ++
     litAtoms vr ++ [quoteCls],
   [quoteCls] ++ litAtoms nm ++ [chCls '@'] ++ litAtoms vr ++ [quoteCls],
   [RAtom.wb] ++ litAtoms nm ++ [wsStar, chCls '=', chCls '=', wsStar] ++ litAtoms vr ++
     [RAtom.wb],
   [RAtom.wb] ++ litAtoms nm ++ [wsStar, RAtom.cls verOp, RAtom.star verOp, wsStar] ++
     litAtoms vr ++ [RAtom.wb],
   litAtoms nm ++ [wsStar, chCls '=', wsStar, quoteCls] ++ litAtoms vr ++ [quoteCls],
   [RAtom.wb] ++ litAtoms nm ++ [RAtom.cls isWS, wsStar] ++ litAtoms vr ++ [RAtom.wb]]

/-- searchInFile name-only `patterns` in source order. -/
def patternsNameOnly (isYarnLock isPoetryLock isUvLock isPyProjectToml
    isRequirementsTxt : Bool) (nm : List Char) : List (List RAtom) :=
  (if isYarnLock then
    [litAtoms nm ++ [chCls '@'],
     [quoteCls] ++ litAtoms nm ++ [chCls '@']]
   else []) ++
  (if isPoetryLock || isUvLock then
    [litAtoms "name".data ++ [wsStar, chCls '=', wsStar, quoteCls] ++ litAtoms nm ++ [quoteCls],
     [quoteCls] ++ litAtoms nm ++ [quoteCls, wsStar, chCls '=']]
   else []) ++
  (if isPyProjectToml then
    [[quoteCls] ++ litAtoms nm ++ [quoteCls, wsStar, chCls '='],
     litAtoms nm ++ [wsStar, chCls '=']]
   else []) ++
  (if isRequirementsTxt then
    [[RAtom.wb] ++ litAtoms nm ++ [wsStar, RAtom.cls verOp],
     [RAtom.bol, wsStar] ++ litAtoms nm ++ [wsStar, RAtom.cls verOp]]
   else []) ++
  [[quoteCls] ++ litAtoms nm ++ [quoteCls],
   [quoteCls] ++ litAtoms nm ++ [chCls '@'],
   [RAtom.wb] ++ litAtoms nm ++ [RAtom.wb]]

/-- Block-start regex of the yarn.lock branch (`["']name@`, flag `i`). -/
def yarnStartPat (nm : List Char) : List RAtom := [quoteCls] ++ litAtoms nm ++ [chCls '@']

/-- First alternative of the poetry/uv block-header regex. -/
def pkgHeaderPat1 : List RAtom := litAtoms "[[package]]".data

/-- Second alternative of the poetry/uv block-header regex. -/
def pkgHeaderPat2 : List RAtom := litAtoms "[package.".data

/-- The `name = "nm"` regex of the poetry/uv branch. -/
def nameEqPat (nm : List Char) : List RAtom :=
  litAtoms "name".data ++ [wsStar, chCls '=', wsStar, quoteCls] ++ litAtoms nm ++ [quoteCls]

/-- Result record of the dependency search (utils.ts `DependencyLocation`). -/
structure DependencyLocation where
  filePath : String
  relativePath : String
  lineNumber : Option Nat := none
  content : Option String := none
deriving DecidableEq, Repr

/-- Mutable state of the block-structured lock-file scan. -/
structure BlockState where
  inPackageBlock : Bool := false
  packageLines : List Nat := []
  results : List DependencyLocation := []
deriving Repr

/-- Flush a block: emit each recorded line, filtered — when a version was
supplied — by the double-escaped version regex, whose compiled form matches
the literal once-escaped text `escVer` (case-insensitively). -/
def flushBlock (filePath relativePath : String) (lines : List String)
    (escVer : Option (List Char)) (packageLines : List Nat) :
    List DependencyLocation :=
  packageLines.filterMap (fun lineNum =>
    let blockLine := lines.getD lineNum ""
    let hasVersion :=
      match escVer with
      | some ev => regexTest (litAtoms ev) (lcList blockLine.data)
      | none => true
    if hasVersion then
      some { filePath := filePath, relativePath := relativePath,
             lineNumber := some (lineNum + 1), content := some (jsTrim blockLine) }
    else none)

/-- One loop iteration of the yarn.lock block scan: a block-start match
resets the block to the current line; a blank line flushes a nonempty block;
otherwise a line inside a block is recorded (a start line is recorded a
second time by the trailing else-if, as in the source). -/
def yarnStep (nm : List Char) (filePath relativePath : String) (lines : List String)
    (escVer : Option (List Char)) (st : BlockState) (p : Nat × String) : BlockState :=
  let i := p.1
  let line := p.2
  let st :=
    if regexTest (yarnStartPat nm) (lcList line.data) then
      { st with inPackageBlock := true, packageLines := [i] }
    else st
  if st.inPackageBlock && jsTrim line == "" && st.packageLines.length > 0 then
    { inPackageBlock := false, packageLines := [],
      results := st.results ++ flushBlock filePath relativePath lines escVer st.packageLines }
  else if st.inPackageBlock then
    { st with packageLines := st.packageLines ++ [i] }
  else st

/-- One loop iteration of the poetry.lock / uv.lock block scan (including the
source's dead re-start branch, whose guard contradicts the enclosing
condition). -/
def poetryStep (nm : List Char) (filePath relativePath : String) (lines : List String)
    (escVer : Option (List Char)) (st : BlockState) (p : Nat × String) : BlockState :=
  let i := p.1
  let lc := lcList p.2.data
  let isStart := regexTest pkgHeaderPat1 lc || regexTest pkgHeaderPat2 lc ||
    regexTest (nameEqPat nm) lc
  let st := if isStart then { st with inPackageBlock := true, packageLines := [i] } else st
  let isAnchoredHeader := regexTest (RAtom.bol :: pkgHeaderPat1) lc ||
    regexTest (RAtom.bol :: pkgHeaderPat2) lc
  let isNameEq := regexTest (nameEqPat nm) lc
  if st.inPackageBlock && isAnchoredHeader && !isNameEq then
    let flushed := st.results ++ flushBlock filePath relativePath lines escVer st.packageLines
    if isNameEq then { st with results := flushed, packageLines := [i] }
    else { inPackageBlock := false, packageLines := [], results := flushed }
  else if st.inPackageBlock then
    { st with packageLines := st.packageLines ++ [i] }
  else st

/-- utils.ts `findDependencyInProject.searchInFile`: the block-structured
scan for yarn.lock / poetry.lock / uv.lock (with an end-of-file flush of an
unterminated block), and the per-line two-phase pattern scan for every other
recognized file.  All regexes carry the `i` flag, so literals are lowercased
and lines matched lowercased. -/
def searchInFile (filePath relativePath fileName0 componentName : String)
    (componentVersion : Option String) (content : String) : List DependencyLocation :=
  let lines := splitLines content
  let fileName := lcString fileName0
  let isLockFile := jsEndsWith fileName ".lock"
  let isYarnLock := fileName == "yarn.lock"
  let isPoetryLock := fileName == "poetry.lock"
  let isUvLock := fileName == "uv.lock"
  let isPyProjectToml := fileName == "pyproject.toml"
  let isPackageJson := fileName == "package.json"
  let isRequirementsTxt := fileName == "requirements.txt"
  let nm := lcList componentName.data
  let escVerText : Option String :=
    match componentVersion with
    | some v => if v != "" then some (jsEscapeRegex v) else none
    | none => none
  if isLockFile && (isYarnLock || isPoetryLock || isUvLock) then
    let escVerChars := escVerText.map (fun s => lcList s.data)
    let final :=
      if isYarnLock then
        (lines.enum).foldl (yarnStep nm filePath relativePath lines escVerChars) {}
      else
        (lines.enum).foldl (poetryStep nm filePath relativePath lines escVerChars) {}
    if final.inPackageBlock && final.packageLines.length > 0 then
      final.results ++ flushBlock filePath relativePath lines escVerChars final.packageLines
    else final.results
  else
    (lines.enum).flatMap (fun p =>
      let lc := lcList p.2.data
      let foundWithVersion :=
        if escVerText.isSome then
          (patternsWithVersion isPackageJson isYarnLock isRequirementsTxt isPoetryLock
            isUvLock isPyProjectToml isLockFile nm
            (lcList (componentVersion.getD "").data)).any (fun pat => regexTest pat lc)
        else false
      let found :=
        if foundWithVersion then true
        else
          (patternsNameOnly isYarnLock isPoetryLock isUvLock isPyProjectToml
            isRequirementsTxt nm).any (fun pat => regexTest pat lc)
      if found then
        [{ filePath := filePath, relativePath := relativePath,
           lineNumber := some (p.1 + 1), content := some (jsTrim p.2) }]
      else [])

mutual
/-- A file-system tree for the traversal model. -/
inductive FsEntry where
  | file (content : String)
  | dir (entries : FsEntries)
/-- Directory entries in `readdir` order (entry name plus entry). -/
inductive FsEntries where
  | nil
  | cons (name : String) (e : FsEntry) (rest : FsEntries)
end

/-- The recognized manifest/lock filenames (the `dependencyFiles` list,
commented-out entries excluded). -/
def dependencyFiles : List String :=
  ["package.json", "package-lock.json", "yarn.lock", "requirements.txt",
   "poetry.lock", "pyproject.toml", "uv.lock", "pom.xml", "build.gradle",
   "Cargo.toml", "Cargo.lock", "go.mod", "go.sum"]

/-- The recognized lock-file extensions. -/
def dependencyFileExtensions : List String := [".lock"]

/-- POSIX `path.join` for the two shapes used (empty left operand yields the
right operand). -/
def joinPath (a b : String) : String := if a == "" then b else a ++ "/" ++ b

/-- The entry loop of `searchInDirectory`: skip dot-entries, `node_modules`
and `vendor`; scan recognized files; recurse into directories with an
incremented depth.  The recursive call's depth guard (the check at the top of
the source's `searchInDirectory`) is written at the call site so that the
recursion is structural over the tree. -/
def searchEntriesIn (name : String) (version : Option String) (maxDepth : Nat) :
    String → String → Nat → FsEntries → List DependencyLocation
  | _, _, _, .nil => []
  | dirPath, relativePath, depth, .cons entryName e rest =>
    (if jsStartsWith entryName "." || entryName == "node_modules" ||
        entryName == "vendor" then []
     else
       match e with
       | .file content =>
         if dependencyFiles.contains entryName ||
            dependencyFileExtensions.any (fun ext => jsEndsWith entryName ext) then
           searchInFile (joinPath dirPath entryName) (joinPath relativePath entryName)
             entryName name version content
         else []
       | .dir sub =>
         if depth + 1 > maxDepth then []
         else
           searchEntriesIn name version maxDepth (joinPath dirPath entryName)
             (joinPath relativePath entryName) (depth + 1) sub) ++
    searchEntriesIn name version maxDepth dirPath relativePath depth rest

/-- utils.ts `findDependencyInProject.searchInDirectory`: return nothing past
the maximum depth, else walk the entries in order. -/
def searchInDirectory (name : String) (version : Option String) (maxDepth : Nat)
    (dirPath relativePath : String) (depth : Nat)
    (entries : FsEntries) : List DependencyLocation :=
  if depth > maxDepth then []
  else searchEntriesIn name version maxDepth dirPath relativePath depth entries

/-- utils.ts `findDependencyInProject`: search every workspace root (given as
root path plus directory tree), appending results in traversal order. -/
def findDependencyInProject (componentName : String)
    (workspaceFolders : List (String × FsEntries))
    (componentVersion : Option String := none) (maxDepth : Nat := 15) :
    List DependencyLocation :=
  workspaceFolders.flatMap (fun folder =>
    searchInDirectory componentName componentVersion maxDepth folder.1 "" 0 folder.2)

/-- A chain of `k` nested directories around the given entries. -/
def nestDirs : Nat → FsEntries → FsEntries
  | 0, inner => inner
  | k + 1, inner => FsEntries.cons "d" (FsEntry.dir (nestDirs k inner)) FsEntries.nil

/-- Depth fixture: one recognized lock file with a matching block. -/
def depthFixture : FsEntries :=
  FsEntries.cons "yarn.lock"
    (FsEntry.file "\"foo@1.0.0\":\n  version \"1.0.0\"\n\n") FsEntries.nil

theorem getEntries_setEntries (l : List (Nat × TriageData)) (i j : Nat) (d : TriageData) :
    getEntries (setEntries l i d) j = if j = i then some d else getEntries l j := by
  induction l with
  | nil =>
    by_cases h : j = i
    · subst h; simp [setEntries, getEntries]
    · simp [setEntries, getEntries, h, Ne.symm h]
  | cons p rest ih =>
    obtain ⟨k, v⟩ := p
    by_cases hk : k = i
    · subst hk
      by_cases hj : j = k
      · subst hj; simp [setEntries, getEntries]
      · simp [setEntries, getEntries, hj, Ne.symm hj]
    · by_cases hj : j = k
      · subst hj
        simp [setEntries, getEntries, Ne.symm hk, hk]
      · simp [setEntries, getEntries, Ne.symm hk, Ne.symm hj, hk, hj, ih]

theorem read_write (s : Store) (i j : Nat) (d : TriageData) :
    (s.write i d).read j = if j = i then some d else s.read j := by
  simp [Store.read, Store.write, getEntries_setEntries]

theorem read_write_self (s : Store) (i : Nat) (d : TriageData) :
    (s.write i d).read i = some d := by
  simp [read_write]

/-- C1: markAsSubmitted(id) is a no-op when no triage record exists for id
(the store is returned unchanged, so no record is created); when a record
exists, the resulting record has submitted = true, modified = false,
submittedAt stamped with the current time, and
originalImpact/originalMitigation/originalStatus frozen to the record's
current impact/mitigation/status at the time of the call. -/
theorem C1_markAsSubmitted (s : Store) (id now : Nat) :
    (s.read id = none → markAsSubmitted s id now = s) ∧
    (∀ t : TriageData, s.read id = some t →
      (markAsSubmitted s id now).read id =
        some { t with
               submitted := some true, submittedAt := some now, modified := some false,
               originalImpact := t.impact, originalMitigation := t.mitigation,
               originalStatus := t.status }) := by
  constructor
  · intro h
    simp [markAsSubmitted, h]
  · intro t h
    simp [markAsSubmitted, h, read_write_self]

theorem C1_markAsSubmitted_witness :
    markAsSubmitted Store.empty 5 0 = Store.empty ∧
    (markAsSubmitted (Store.empty.write 1 { impact := some "imp" }) 1 7).read 1 =
      some { impact := some "imp", submitted := some true, submittedAt := some 7,
             modified := some false, originalImpact := some "imp" } := by
  refine ⟨(C1_markAsSubmitted Store.empty 5 0).1 rfl, ?_⟩
  have h := (C1_markAsSubmitted (Store.empty.write 1 { impact := some "imp" }) 1 7).2
    { impact := some "imp" } rfl
  simpa using h

theorem read_updateImpact (s : Store) (id' j : Nat) (v : String) :
    (updateImpact s id' v).read j =
      if j = id' then
        some (if truthyB ((s.read id').getD emptyTriage).submitted &&
                 ((s.read id').getD emptyTriage).originalImpact.isSome then
                { ((s.read id').getD emptyTriage) with
                  impact := some v
                  modified := some (isTriageModified
                    { ((s.read id').getD emptyTriage) with impact := some v }) }
              else { ((s.read id').getD emptyTriage) with impact := some v })
      else s.read j := by
  by_cases hg : (truthyB ((s.read id').getD emptyTriage).submitted &&
      ((s.read id').getD emptyTriage).originalImpact.isSome) = true <;>
    simp [updateImpact, read_write, hg, emptyTriage]

theorem read_updateMitigation (s : Store) (id' j : Nat) (v : String) :
    (updateMitigation s id' v).read j =
      if j = id' then
        some (if truthyB ((s.read id').getD emptyTriage).submitted &&
                 ((s.read id').getD emptyTriage).originalMitigation.isSome then
                { ((s.read id').getD emptyTriage) with
                  mitigation := some v
                  modified := some (isTriageModified
                    { ((s.read id').getD emptyTriage) with mitigation := some v }) }
              else { ((s.read id').getD emptyTriage) with mitigation := some v })
      else s.read j := by
  by_cases hg : (truthyB ((s.read id').getD emptyTriage).submitted &&
      ((s.read id').getD emptyTriage).originalMitigation.isSome) = true <;>
    simp [updateMitigation, read_write, hg, emptyTriage]

theorem read_updateStatus (s : Store) (id' j : Nat) (v : Option String) :
    (updateStatus s id' v).read j =
      if j = id' then
        some (if truthyB ((s.read id').getD emptyTriage).submitted &&
                 ((s.read id').getD emptyTriage).originalStatus.isSome then
                { ((s.read id').getD emptyTriage) with
                  status := v
                  modified := some (isTriageModified
                    { ((s.read id').getD emptyTriage) with status := v }) }
              else { ((s.read id').getD emptyTriage) with status := v })
      else s.read j := by
  by_cases hg : (truthyB ((s.read id').getD emptyTriage).submitted &&
      ((s.read id').getD emptyTriage).originalStatus.isSome) = true <;>
    simp [updateStatus, read_write, hg, emptyTriage]

theorem read_updateImpact_self (s : Store) (id' : Nat) (v : String) :
    (updateImpact s id' v).read id' =
      some (if truthyB ((s.read id').getD emptyTriage).submitted &&
               ((s.read id').getD emptyTriage).originalImpact.isSome then
              { ((s.read id').getD emptyTriage) with
                impact := some v
                modified := some (isTriageModified
                  { ((s.read id').getD emptyTriage) with impact := some v }) }
            else { ((s.read id').getD emptyTriage) with impact := some v }) := by
  rw [read_updateImpact, if_pos rfl]

theorem read_updateMitigation_self (s : Store) (id' : Nat) (v : String) :
    (updateMitigation s id' v).read id' =
      some (if truthyB ((s.read id').getD emptyTriage).submitted &&
               ((s.read id').getD emptyTriage).originalMitigation.isSome then
              { ((s.read id').getD emptyTriage) with
                mitigation := some v
                modified := some (isTriageModified
                  { ((s.read id').getD emptyTriage) with mitigation := some v }) }
            else { ((s.read id').getD emptyTriage) with mitigation := some v }) := by
  rw [read_updateMitigation, if_pos rfl]

theorem read_updateStatus_self (s : Store) (id' : Nat) (v : Option String) :
    (updateStatus s id' v).read id' =
      some (if truthyB ((s.read id').getD emptyTriage).submitted &&
               ((s.read id').getD emptyTriage).originalStatus.isSome then
              { ((s.read id').getD emptyTriage) with
                status := v
                modified := some (isTriageModified
                  { ((s.read id').getD emptyTriage) with status := v }) }
            else { ((s.read id').getD emptyTriage) with status := v }) := by
  rw [read_updateStatus, if_pos rfl]

theorem unsub_unmod_applyOp (s : Store) (op : Op) (hs : UnsubmittedUnmodified s) :
    UnsubmittedUnmodified (applyOp s op) := by
  have base : ∀ id', truthyB ((s.read id').getD emptyTriage).submitted = false →
      truthyB ((s.read id').getD emptyTriage).modified = false := by
    intro id' h
    cases hr : s.read id' with
    | none => rfl
    | some t0 => simpa [hr] using hs id' t0 hr (by simpa [hr] using h)
  cases op with
  | updImpact id' v =>
    intro id t hget hsub
    simp only [applyOp] at hget
    rw [read_updateImpact] at hget
    by_cases hid : id = id'
    · rw [if_pos hid] at hget
      by_cases hg : (truthyB ((s.read id').getD emptyTriage).submitted &&
          ((s.read id').getD emptyTriage).originalImpact.isSome) = true
      · rw [if_pos hg] at hget
        injection hget with h
        subst h
        simp only [Bool.and_eq_true] at hg
        have hsub2 : truthyB ((s.read id').getD emptyTriage).submitted = false := hsub
        rw [hg.1] at hsub2
        exact Bool.noConfusion hsub2
      · rw [if_neg hg] at hget
        injection hget with h
        subst h
        exact base id' hsub
    · rw [if_neg hid] at hget
      exact hs id t hget hsub
  | updMitigation id' v =>
    intro id t hget hsub
    simp only [applyOp] at hget
    rw [read_updateMitigation] at hget
    by_cases hid : id = id'
    · rw [if_pos hid] at hget
      by_cases hg : (truthyB ((s.read id').getD emptyTriage).submitted &&
          ((s.read id').getD emptyTriage).originalMitigation.isSome) = true
      · rw [if_pos hg] at hget
        injection hget with h
        subst h
        simp only [Bool.and_eq_true] at hg
        have hsub2 : truthyB ((s.read id').getD emptyTriage).submitted = false := hsub
        rw [hg.1] at hsub2
        exact Bool.noConfusion hsub2
      · rw [if_neg hg] at hget
        injection hget with h
        subst h
        exact base id' hsub
    · rw [if_neg hid] at hget
      exact hs id t hget hsub
  | updStatus id' v =>
    intro id t hget hsub
    simp only [applyOp] at hget
    rw [read_updateStatus] at hget
    by_cases hid : id = id'
    · rw [if_pos hid] at hget
      by_cases hg : (truthyB ((s.read id').getD emptyTriage).submitted &&
          ((s.read id').getD emptyTriage).originalStatus.isSome) = true
      · rw [if_pos hg] at hget
        injection hget with h
        subst h
        simp only [Bool.and_eq_true] at hg
        have hsub2 : truthyB ((s.read id').getD emptyTriage).submitted = false := hsub
        rw [hg.1] at hsub2
        exact Bool.noConfusion hsub2
      · rw [if_neg hg] at hget
        injection hget with h
        subst h
        exact base id' hsub
    · rw [if_neg hid] at hget
      exact hs id t hget hsub
  | submit id' now =>
    intro id t hget hsub
    simp only [applyOp] at hget
    cases hr : s.read id' with
    | none =>
      simp only [markAsSubmitted, hr] at hget
      exact hs id t hget hsub
    | some t0 =>
      simp only [markAsSubmitted, hr, read_write] at hget
      by_cases hid : id = id'
      · rw [if_pos hid] at hget
        injection hget with h
        subst h
        have hsub2 : truthyB (some true) = false := hsub
        simp [truthyB] at hsub2
      · rw [if_neg hid] at hget
        exact hs id t hget hsub
  | clearAll =>
    intro id t hget hsub
    simp [applyOp, clearStore, Store.read, getEntries] at hget

theorem unsub_unmod_runOps (ops : List Op) : UnsubmittedUnmodified (runOps ops) := by
  have hgen : ∀ (l : List Op) (s : Store), UnsubmittedUnmodified s →
      UnsubmittedUnmodified (l.foldl applyOp s) := by
    intro l
    induction l with
    | nil => intro s hs; simpa using hs
    | cons op rest ih =>
      intro s hs
      exact ih (applyOp s op) (unsub_unmod_applyOp s op hs)
  refine hgen ops Store.empty ?_
  intro id t hget
  simp [Store.empty, Store.read, getEntries] at hget

/-- C2: every record reachable from the empty store by any sequence of
updateImpact/updateMitigation/updateStatus/markAsSubmitted/clear operations
satisfies: whenever submitted is not (truthy) true, modified is not true; in
particular field updates on a never-submitted record leave modified
false/undefined. -/
theorem C2_unsubmitted_never_modified (ops : List Op) (id : Nat) (t : TriageData)
    (hget : (runOps ops).read id = some t) (hsub : truthyB t.submitted = false) :
    truthyB t.modified = false :=
  unsub_unmod_runOps ops id t hget hsub

theorem C2_unsubmitted_never_modified_witness :
    truthyB (TriageData.modified { impact := some "a" }) = false :=
  C2_unsubmitted_never_modified [Op.updImpact 1 "a"] 1 { impact := some "a" } rfl rfl

/-- C3 fails as stated: submit a record whose impact was never set
(mitigation only), then change the mitigation away from its frozen snapshot —
`isTriageModified` short-circuits on the falsy `originalImpact`, so `modified`
stays false although the edited field differs from its snapshot. -/
theorem C3_counterexample :
    ((updateMitigation (markAsSubmitted (updateMitigation Store.empty 1 "m") 1 0) 1 "x").read
        1).map TriageData.modified = some (some false) ∧ ("x" : String) ≠ "m" := by
  exact ⟨rfl, by decide⟩

/-- C3 (amended): the no-hysteresis round trip holds provided the record's
impact at the time of markAsSubmitted was a defined non-empty string and the
edited field was defined at that time: updating one editable field to a value
different from its frozen snapshot yields modified = true, and updating the
same field back to the snapshot value yields modified = false again. -/
theorem C3_modified_roundtrip (s : Store) (id now : Nat) (t : TriageData)
    (hget : s.read id = some t)
    (i0 m0 st0 : String)
    (hi : t.impact = some i0) (hi0 : i0 ≠ "")
    (hm : t.mitigation = some m0) (hst : t.status = some st0) :
    (∀ v, v ≠ i0 →
      ((updateImpact (markAsSubmitted s id now) id v).read id).map TriageData.modified =
        some (some true) ∧
      ((updateImpact (updateImpact (markAsSubmitted s id now) id v) id i0).read id).map
        TriageData.modified = some (some false)) ∧
    (∀ v, v ≠ m0 →
      ((updateMitigation (markAsSubmitted s id now) id v).read id).map TriageData.modified =
        some (some true) ∧
      ((updateMitigation (updateMitigation (markAsSubmitted s id now) id v) id m0).read id).map
        TriageData.modified = some (some false)) ∧
    (∀ v, v ≠ st0 →
      ((updateStatus (markAsSubmitted s id now) id (some v)).read id).map TriageData.modified =
        some (some true) ∧
      ((updateStatus (updateStatus (markAsSubmitted s id now) id (some v)) id
          (some st0)).read id).map TriageData.modified = some (some false)) := by
  have hT : (markAsSubmitted s id now).read id = some
      { t with submitted := some true, submittedAt := some now, modified := some false,
               originalImpact := t.impact, originalMitigation := t.mitigation,
               originalStatus := t.status } := by
    simp [markAsSubmitted, hget, read_write_self]
  refine ⟨fun v hv => ⟨?_, ?_⟩, fun v hv => ⟨?_, ?_⟩, fun v hv => ⟨?_, ?_⟩⟩ <;>
    simp [read_updateImpact, read_updateMitigation, read_updateStatus, hT, hi, hm, hst,
      isTriageModified, truthyB, truthyS, hi0, hv, emptyTriage]

theorem C3_modified_roundtrip_witness :
    ((updateImpact (markAsSubmitted (Store.empty.write 1
        { impact := some "i", mitigation := some "m", status := some "Verified" }) 1 0)
        1 "other").read 1).map TriageData.modified = some (some true) :=
  ((C3_modified_roundtrip (Store.empty.write 1
      { impact := some "i", mitigation := some "m", status := some "Verified" }) 1 0
      _ rfl "i" "m" "Verified" rfl (by decide) rfl rfl).1 "other" (by decide)).1

/-- C10: when a record's frozen originalImpact snapshot is absent or the
empty string, isTriageModified returns false on it, and none of
updateImpact/updateMitigation/updateStatus can ever set modified = true for
it — even when submitted is true and mitigation or status differ from their
snapshots (the update guards test definedness of originalX while
isTriageModified tests truthiness of originalImpact). -/
theorem C10_falsy_snapshot_freezes_modified (t : TriageData)
    (h : t.originalImpact = none ∨ t.originalImpact = some "") :
    isTriageModified t = false ∧
    ∀ (s : Store) (id : Nat), s.read id = some t → t.modified ≠ some true →
      ∀ (v : String) (stv : Option String),
        ((updateImpact s id v).read id).map TriageData.modified ≠ some (some true) ∧
        ((updateMitigation s id v).read id).map TriageData.modified ≠ some (some true) ∧
        ((updateStatus s id stv).read id).map TriageData.modified ≠ some (some true) := by
  have hfalse : truthyS t.originalImpact = false := by
    rcases h with h | h <;> simp [truthyS, h]
  refine ⟨by simp [isTriageModified, hfalse], ?_⟩
  intro s id hget hmod v stv
  refine ⟨?_, ?_, ?_⟩
  · rw [read_updateImpact_self, hget]
    simp only [Option.getD_some]
    by_cases hg : (truthyB t.submitted && t.originalImpact.isSome) = true
    · rw [if_pos hg]; simp [isTriageModified, hfalse]
    · rw [if_neg hg]; simpa using hmod
  · rw [read_updateMitigation_self, hget]
    simp only [Option.getD_some]
    by_cases hg : (truthyB t.submitted && t.originalMitigation.isSome) = true
    · rw [if_pos hg]; simp [isTriageModified, hfalse]
    · rw [if_neg hg]; simpa using hmod
  · rw [read_updateStatus_self, hget]
    simp only [Option.getD_some]
    by_cases hg : (truthyB t.submitted && t.originalStatus.isSome) = true
    · rw [if_pos hg]; simp [isTriageModified, hfalse]
    · rw [if_neg hg]; simpa using hmod

theorem C10_falsy_snapshot_freezes_modified_witness :
    isTriageModified
      { mitigation := some "x", status := some "Verified", submitted := some true,
        modified := some false, originalImpact := none, originalMitigation := some "m",
        originalStatus := some "Close" } = false ∧
    ((updateMitigation (Store.empty.write 1
        { mitigation := some "x", status := some "Verified", submitted := some true,
          modified := some false, originalImpact := none, originalMitigation := some "m",
          originalStatus := some "Close" }) 1 "y").read 1).map TriageData.modified ≠
      some (some true) := by
  have h := C10_falsy_snapshot_freezes_modified
    { mitigation := some "x", status := some "Verified", submitted := some true,
      modified := some false, originalImpact := none, originalMitigation := some "m",
      originalStatus := some "Close" } (Or.inl rfl)
  exact ⟨h.1, (h.2 (Store.empty.write 1
    { mitigation := some "x", status := some "Verified", submitted := some true,
      modified := some false, originalImpact := none, originalMitigation := some "m",
      originalStatus := some "Close" }) 1 rfl (by decide) "y" (some "Close")).2.1⟩

/-- C9 fails as stated: for the Out Of Scope status the request body also
sets push_to_jira = true, an extra field beyond the claimed flag
combination (defectDojoClient.ts, the `updateData.push_to_jira = true`
assignment in the Out Of Scope branch). -/
theorem C9_counterexample :
    buildUpdateData "i" "m" "Out Of Scope" ≠
      [("impact", Value.str "i"), ("mitigation", Value.str "m"),
       ("out_of_scope", Value.bool true), ("active", Value.bool false),
       ("false_p", Value.bool false)] ∧
    ("push_to_jira", Value.bool true) ∈ buildUpdateData "i" "m" "Out Of Scope" := by
  constructor
  · decide
  · decide

/-- C9 (amended): the patch payload is the impact and mitigation texts plus
exactly the listed flags for Verified, False positive and Close; for
Out Of Scope it additionally sets push_to_jira = true. -/
theorem C9_updateFinding_payload (impact mitigation : String) :
    buildUpdateData impact mitigation "Verified" =
      [("impact", Value.str impact), ("mitigation", Value.str mitigation),
       ("verified", Value.bool true), ("active", Value.bool true),
       ("false_p", Value.bool false), ("out_of_scope", Value.bool false)] ∧
    buildUpdateData impact mitigation "False positive" =
      [("impact", Value.str impact), ("mitigation", Value.str mitigation),
       ("false_p", Value.bool true), ("active", Value.bool false),
       ("out_of_scope", Value.bool false)] ∧
    buildUpdateData impact mitigation "Out Of Scope" =
      [("impact", Value.str impact), ("mitigation", Value.str mitigation),
       ("out_of_scope", Value.bool true), ("active", Value.bool false),
       ("false_p", Value.bool false), ("push_to_jira", Value.bool true)] ∧
    buildUpdateData impact mitigation "Close" =
      [("impact", Value.str impact), ("mitigation", Value.str mitigation),
       ("verified", Value.bool false), ("active", Value.bool false),
       ("false_p", Value.bool false), ("out_of_scope", Value.bool false)] :=
  ⟨rfl, rfl, rfl, rfl⟩

theorem validate_isValid_truthy (t : TriageData)
    (h : (validateTriageData (some t)).1 = true) :
    truthyS t.impact = true ∧ truthyS t.mitigation = true ∧ truthyS t.status = true := by
  by_cases c1 : (!truthyS t.impact || jsTrim (t.impact.getD "") == "") = true
  · simp [validateTriageData, c1] at h
  by_cases c2 : (!truthyS t.mitigation || jsTrim (t.mitigation.getD "") == "") = true
  · simp [validateTriageData, c2] at h
  by_cases c3 : (!truthyS t.status) = true
  · simp [validateTriageData, c3] at h
  simp only [Bool.or_eq_true, not_or, Bool.not_eq_true] at c1 c2 c3
  exact ⟨by simpa using c1.1, by simpa using c2.1, by simpa using c3⟩

theorem foldl_patch_events (ids : List Nat) (impact mitigation status : String)
    (now : Nat) (acc : List SubmitEvent) (st : Store) :
    (ids.foldl (fun acc id =>
        (acc.1 ++ [SubmitEvent.patch id impact mitigation status, SubmitEvent.mark id],
         markAsSubmitted acc.2 id now)) (acc, st)).1 =
      acc ++ ids.flatMap (fun id =>
        [SubmitEvent.patch id impact mitigation status, SubmitEvent.mark id]) := by
  induction ids generalizing acc st with
  | nil => simp
  | cons id rest ih => simp [ih]

/-- C4: when the stored triage record passes validation, the submit flow
issues exactly one patch call per id of `_aggregatedFindingIds` (just the
finding's own id when that field is absent), in order, each carrying the
identical impact/mitigation/status payload from the stored record, and each
patch call is immediately followed by markAsSubmitted on the same id. -/
theorem C4_submit_fanout (finding : Finding) (store : Store) (now : Nat)
    (t : TriageData) (hget : store.read finding.id = some t)
    (impact mitigation status : String)
    (hi : t.impact = some impact) (hm : t.mitigation = some mitigation)
    (hs : t.status = some status)
    (hvalid : (validateTriageData (store.read finding.id)).1 = true) :
    ∃ store', submitTriageFlow finding store now =
      some ((finding.aggregatedFindingIds.getD [finding.id]).flatMap
              (fun id => [SubmitEvent.patch id impact mitigation status,
                          SubmitEvent.mark id]),
            store') := by
  obtain ⟨h1, h2, h3⟩ := validate_isValid_truthy t (hget ▸ hvalid)
  have hvalid2 : (validateTriageData (some t)).1 = true := hget ▸ hvalid
  have h1a : truthyS (some impact) = true := hi ▸ h1
  have h2a : truthyS (some mitigation) = true := hm ▸ h2
  have h3a : truthyS (some status) = true := hs ▸ h3
  have key : submitTriageFlow finding store now =
      some ((finding.aggregatedFindingIds.getD [finding.id]).foldl
        (fun acc id =>
          (acc.1 ++ [SubmitEvent.patch id impact mitigation status, SubmitEvent.mark id],
           markAsSubmitted acc.2 id now)) ([], store)) := by
    simp [submitTriageFlow, hget, hvalid2, h1a, h2a, h3a, hi, hm, hs]
  refine ⟨((finding.aggregatedFindingIds.getD [finding.id]).foldl
    (fun acc id =>
      (acc.1 ++ [SubmitEvent.patch id impact mitigation status, SubmitEvent.mark id],
       markAsSubmitted acc.2 id now)) ([], store)).2, ?_⟩
  rw [key]
  congr 1
  refine Prod.ext_iff.mpr ⟨?_, rfl⟩
  simpa using foldl_patch_events (finding.aggregatedFindingIds.getD [finding.id])
    impact mitigation status now [] store

theorem C4_submit_fanout_witness :
    ∃ store', submitTriageFlow
      (Finding.mk 1 "t" "d" "High" none "" "" none true false false false false 0 0
        none none (some [3, 4]) (some true) none)
      (Store.empty.write 1
        { impact := some "i", mitigation := some "m", status := some "Verified" }) 0 =
      some ([SubmitEvent.patch 3 "i" "m" "Verified", SubmitEvent.mark 3,
             SubmitEvent.patch 4 "i" "m" "Verified", SubmitEvent.mark 4], store') := by
  obtain ⟨st, h⟩ := C4_submit_fanout
    (Finding.mk 1 "t" "d" "High" none "" "" none true false false false false 0 0
      none none (some [3, 4]) (some true) none)
    (Store.empty.write 1
      { impact := some "i", mitigation := some "m", status := some "Verified" }) 0
    { impact := some "i", mitigation := some "m", status := some "Verified" } rfl
    "i" "m" "Verified" rfl rfl rfl (by decide)
  exact ⟨st, by simpa using h⟩

theorem keysOf_insertGroup (m : List (String × List Finding)) (k : String) (f : Finding) :
    keysOf (insertGroup m k f) =
      if k ∈ keysOf m then keysOf m else keysOf m ++ [k] := by
  induction m with
  | nil => simp [insertGroup, keysOf]
  | cons e rest ih =>
    obtain ⟨k', fs⟩ := e
    by_cases h : k' = k
    · subst h
      simp [insertGroup, keysOf]
    · have hne : ¬ k = k' := fun hh => h hh.symm
      simp only [insertGroup, beq_iff_eq, h, if_false, keysOf, List.map_cons]
      rw [show List.map Prod.fst (insertGroup rest k f) = keysOf (insertGroup rest k f) from rfl,
        ih]
      by_cases h2 : k ∈ keysOf rest
      · have h2b : k ∈ List.map Prod.fst rest := h2
        simp only [h2b, List.mem_cons, hne, false_or, if_true, if_pos h2]
        rfl
      · have h2b : k ∉ List.map Prod.fst rest := h2
        simp only [List.mem_cons, hne, false_or, h2b, if_false, if_neg h2]
        rfl

theorem groupOf_insertGroup_self (m : List (String × List Finding)) (k : String)
    (f : Finding) : groupOf (insertGroup m k f) k = groupOf m k ++ [f] := by
  induction m with
  | nil => simp [insertGroup, groupOf]
  | cons e rest ih =>
    obtain ⟨k', fs⟩ := e
    by_cases h : k' = k
    · subst h
      simp [insertGroup, groupOf]
    · simp [insertGroup, groupOf, h, ih]

theorem groupOf_insertGroup_other (m : List (String × List Finding)) (k k2 : String)
    (f : Finding) (hne : k ≠ k2) :
    groupOf (insertGroup m k f) k2 = groupOf m k2 := by
  induction m with
  | nil => simp [insertGroup, groupOf, hne]
  | cons e rest ih =>
    obtain ⟨k', fs⟩ := e
    by_cases h : k' = k
    · subst h
      simp [insertGroup, groupOf, hne]
    · simp [insertGroup, groupOf, h, ih]

theorem specFirstSeenKeys_mem (l : List String) (x : String) :
    x ∈ specFirstSeenKeys l ↔ x ∈ l := by
  induction l using specFirstSeenKeys.induct with
  | case1 => simp [specFirstSeenKeys]
  | case2 k rest ih =>
    rw [specFirstSeenKeys]
    by_cases hx : x = k
    · subst hx; simp
    · simp only [List.mem_cons, hx, false_or]
      rw [ih, List.mem_filter]
      simp [hx]

theorem specFirstSeenKeys_nodup (l : List String) : (specFirstSeenKeys l).Nodup := by
  induction l using specFirstSeenKeys.induct with
  | case1 => simp [specFirstSeenKeys]
  | case2 k rest ih =>
    rw [specFirstSeenKeys]
    refine List.nodup_cons.mpr ⟨?_, ih⟩
    rw [specFirstSeenKeys_mem, List.mem_filter]
    rintro ⟨-, hk⟩
    simp at hk

theorem specFirstSeenKeys_append_singleton (l : List String) (x : String) :
    specFirstSeenKeys (l ++ [x]) =
      if x ∈ l then specFirstSeenKeys l else specFirstSeenKeys l ++ [x] := by
  induction l using specFirstSeenKeys.induct with
  | case1 => simp [specFirstSeenKeys]
  | case2 k rest ih =>
    by_cases hx : x = k
    · subst hx
      rw [List.cons_append, specFirstSeenKeys, specFirstSeenKeys]
      have : (rest ++ [x]).filter (fun y => y ≠ x) = rest.filter (fun y => y ≠ x) := by
        simp [List.filter_append]
      rw [this]
      simp
    · rw [List.cons_append, specFirstSeenKeys, specFirstSeenKeys]
      have : (rest ++ [x]).filter (fun y => y ≠ k) = rest.filter (fun y => y ≠ k) ++ [x] := by
        simp [List.filter_append, hx]
      rw [this, ih]
      by_cases h2 : x ∈ rest.filter (fun y => y ≠ k)
      · have hxr : x ∈ rest := (List.mem_filter.mp h2).1
        simp [h2, hxr, hx]
      · have hxr : x ∉ rest := fun hr => h2 (List.mem_filter.mpr ⟨hr, by simp [hx]⟩)
        simp [h2, hxr, hx]

theorem groupBy_invariant (l : List Finding) (m : List (String × List Finding))
    (pre : List Finding)
    (hk : keysOf m = specFirstSeenKeys (pre.map locKey))
    (hg : ∀ k, groupOf m k = pre.filter (fun f => locKey f == k)) :
    keysOf (l.foldl (fun m f => insertGroup m (locKey f) f) m) =
      specFirstSeenKeys ((pre ++ l).map locKey) ∧
    ∀ k, groupOf (l.foldl (fun m f => insertGroup m (locKey f) f) m) k =
      (pre ++ l).filter (fun f => locKey f == k) := by
  induction l generalizing m pre with
  | nil => simpa using ⟨hk, hg⟩
  | cons f l ih =>
    have hk2 : keysOf (insertGroup m (locKey f) f) =
        specFirstSeenKeys ((pre ++ [f]).map locKey) := by
      rw [keysOf_insertGroup, hk, List.map_append, List.map_singleton,
        specFirstSeenKeys_append_singleton]
      by_cases hmem : locKey f ∈ pre.map locKey
      · simp [hmem, specFirstSeenKeys_mem]
      · simp [hmem, specFirstSeenKeys_mem]
    have hg2 : ∀ k, groupOf (insertGroup m (locKey f) f) k =
        (pre ++ [f]).filter (fun f2 => locKey f2 == k) := by
      intro k
      by_cases hkk : locKey f = k
      · subst hkk
        rw [groupOf_insertGroup_self, hg]
        simp [List.filter_append]
      · rw [groupOf_insertGroup_other _ _ _ _ hkk, hg]
        simp [List.filter_append, hkk]
    have hmain := ih (insertGroup m (locKey f) f) (pre ++ [f]) hk2 hg2
    simpa using hmain

theorem groupByLocation_spec (findings : List Finding) :
    keysOf (groupByLocation findings) = specFirstSeenKeys (findings.map locKey) ∧
    ∀ k, groupOf (groupByLocation findings) k =
      findings.filter (fun f => locKey f == k) := by
  have h := groupBy_invariant findings [] []
    (by simp [keysOf, specFirstSeenKeys]) (by intro k; simp [groupOf])
  simpa [groupByLocation] using h

theorem forall2_entries (m : List (String × List Finding)) (keys : List String)
    (G : String → List Finding)
    (hk : keysOf m = keys) (hnd : keys.Nodup)
    (hg : ∀ k ∈ keys, groupOf m k = G k) :
    List.Forall₂ (fun k e => e.1 = k ∧ e.2 = G k) keys m := by
  induction m generalizing keys with
  | nil =>
    have : keys = [] := by simpa [keysOf] using hk.symm
    subst this
    exact List.Forall₂.nil
  | cons e rest ih =>
    obtain ⟨k0, g0⟩ := e
    subst hk
    have hhead : groupOf ((k0, g0) :: rest) k0 = G k0 :=
      hg k0 (by simp [keysOf])
    have hg0 : g0 = G k0 := by simpa [groupOf] using hhead
    refine List.Forall₂.cons ⟨rfl, hg0⟩ ?_
    have hnd2 : (k0 :: keysOf rest).Nodup := hnd
    refine ih (keysOf rest) rfl hnd2.of_cons ?_
    intro k hkmem
    have hk0 : k0 ∉ keysOf rest := (List.nodup_cons.mp hnd2).1
    have hne : ¬ k0 = k := fun hh => hk0 (hh ▸ hkmem)
    have hmem2 : k ∈ keysOf ((k0, g0) :: rest) := List.mem_cons_of_mem _ hkmem
    have := hg k hmem2
    simpa [groupOf, hne] using this

theorem aggregatedFinding_id (first : Finding) (d t : String) (ids : List Nat)
    (mem : List Finding) : (aggregatedFinding first d t ids mem).id = first.id := by
  cases first; rfl

theorem aggregatedFinding_title (first : Finding) (d t : String) (ids : List Nat)
    (mem : List Finding) : (aggregatedFinding first d t ids mem).title = t := by
  cases first; rfl

theorem aggregatedFinding_description (first : Finding) (d t : String) (ids : List Nat)
    (mem : List Finding) : (aggregatedFinding first d t ids mem).description = d := by
  cases first; rfl

theorem aggregatedFinding_isAggregated (first : Finding) (d t : String) (ids : List Nat)
    (mem : List Finding) :
    (aggregatedFinding first d t ids mem).isAggregated = some true := by
  cases first; rfl

theorem aggregatedFinding_ids (first : Finding) (d t : String) (ids : List Nat)
    (mem : List Finding) :
    (aggregatedFinding first d t ids mem).aggregatedFindingIds = some ids := by
  cases first; rfl

theorem aggregatedFinding_originals (first : Finding) (d t : String) (ids : List Nat)
    (mem : List Finding) :
    (aggregatedFinding first d t ids mem).originalFindings = some mem := by
  cases first; rfl

/-- C5: the aggregator partitions its input by location key preserving
first-seen group order and returns exactly one output element per distinct
key (the two lists below are in bijection, pairwise): a group of size 1 is
passed through unchanged (hence not newly marked aggregated), and a group of
size at least 2 yields one composite whose id is the first member's id, with
_isAggregated = true, _aggregatedFindingIds the member ids in input order and
_originalFindings the member records in input order. -/
theorem C5_aggregate_partition (findings : List Finding) :
    List.Forall₂ (fun k out =>
        (((findings.filter (fun f => locKey f == k)).length = 1) →
           out = (findings.filter (fun f => locKey f == k)).headI) ∧
        (2 ≤ (findings.filter (fun f => locKey f == k)).length →
           out.id = (findings.filter (fun f => locKey f == k)).headI.id ∧
           out.isAggregated = some true ∧
           out.aggregatedFindingIds =
             some ((findings.filter (fun f => locKey f == k)).map Finding.id) ∧
           out.originalFindings = some (findings.filter (fun f => locKey f == k))))
      (specFirstSeenKeys (findings.map locKey))
      (aggregateDependencyTrackFindings findings) := by
  obtain ⟨hk, hg⟩ := groupByLocation_spec findings
  have h2 := forall2_entries (groupByLocation findings)
    (specFirstSeenKeys (findings.map locKey))
    (fun k => findings.filter (fun f => locKey f == k)) hk
    (specFirstSeenKeys_nodup _) (fun k _ => hg k)
  rw [aggregateDependencyTrackFindings, List.forall₂_map_right_iff]
  refine h2.imp ?_
  rintro k e ⟨he1, he2⟩
  constructor
  · intro hlen1
    simp [he2, hlen1]
  · intro hlen2
    have hbeq : (e.2.length == 1) = false := by
      simp only [he2]
      simp only [beq_eq_false_iff_ne, ne_eq]
      omega
    simp only [hbeq, Bool.false_eq_true, if_false]
    refine ⟨?_, ?_, ?_, ?_⟩
    · rw [aggregatedFinding_id, he2]
    · rw [aggregatedFinding_isAggregated]
    · rw [aggregatedFinding_ids, he2]
    · rw [aggregatedFinding_originals, he2]

theorem groupByLocation_const (findings : List Finding) (loc : String)
    (hne : findings ≠ []) (hloc : ∀ f ∈ findings, locKey f = loc) :
    groupByLocation findings = [(loc, findings)] := by
  obtain ⟨hk, hg⟩ := groupByLocation_spec findings
  have hkeys : specFirstSeenKeys (findings.map locKey) = [loc] := by
    cases findings with
    | nil => simp at hne
    | cons f rest =>
      have hf : locKey f = loc := hloc f (by simp)
      rw [List.map_cons, specFirstSeenKeys]
      have hfil : (rest.map locKey).filter (fun x => x ≠ locKey f) = [] := by
        rw [List.filter_eq_nil_iff]
        intro a ha
        obtain ⟨g, hg2, rfl⟩ := List.mem_map.mp ha
        simp [hloc g (by simp [hg2]), hf]
      rw [hfil, hf, specFirstSeenKeys]
  have hfil2 : findings.filter (fun f => locKey f == loc) = findings := by
    rw [List.filter_eq_self]
    intro f hf
    simp [hloc f hf]
  rw [hkeys] at hk
  cases hm : groupByLocation findings with
  | nil => rw [hm] at hk; simp [keysOf] at hk
  | cons e rest2 =>
    obtain ⟨k0, g0⟩ := e
    rw [hm] at hk hg
    have hk2 : k0 = loc ∧ List.map Prod.fst rest2 = [] := by
      simpa [keysOf] using hk
    obtain ⟨hk0, hrest⟩ := hk2
    have hrest2 : rest2 = [] := List.map_eq_nil_iff.mp hrest
    subst hk0
    subst hrest2
    have hgl := hg k0
    rw [hfil2] at hgl
    simp only [groupOf, beq_self_eq_true, if_true] at hgl
    rw [hgl]

/-- C6 fails as stated: aggregating two findings that share a location while
the first member's title is the empty string yields a composite titled
"[Aggregated] Finding" (the source's `firstFinding.title || 'Finding'`
fallback), not the first member's title prefixed with the marker, which here
would be "[Aggregated] " alone. -/
theorem C6_counterexample :
    (aggregateDependencyTrackFindings
        [Finding.mk 1 "" "d1" "High" none "" "a" none true false false false false 0 0
           none none none none none,
         Finding.mk 2 "t2" "d2" "Low" none "" "a" none true false false false false 0 0
           none none none none none]).map Finding.title = ["[Aggregated] Finding"] ∧
    ("[Aggregated] Finding" : String) ≠
      "[Aggregated] " ++
        (Finding.mk 1 "" "d1" "High" none "" "a" none true false false false false 0 0
          none none none none none).title := by
  refine ⟨by decide, by decide⟩

/-- C6 (amended): for a group of two or more findings sharing one location,
the composite's description is the generated multi-line summary enumerating
each member (1-based, in group order) with its title, component, version when
known, and severity, followed by the group's location and the total member
count, and the composite's title is the first member's title — or the literal
"Finding" when that title is empty — with the "[Aggregated] " marker in
front. -/
theorem C6_aggregate_summary (findings : List Finding) (loc : String)
    (hlen : 2 ≤ findings.length)
    (hloc : ∀ f ∈ findings, locKey f = loc) :
    ∃ out, aggregateDependencyTrackFindings findings = [out] ∧
      out.title = "[Aggregated] " ++
        (if findings.headI.title != "" then findings.headI.title else "Finding") ∧
      out.description =
        "Aggregated finding for Location: " ++ loc ++ "\n\n" ++
        "Includes the following findings:\n" ++
        String.intercalate "\n" ((findings.enum).map (fun p =>
          toString (p.1 + 1) ++ ". " ++
          (if p.2.title != "" then p.2.title else "Finding #" ++ toString p.2.id) ++
          " (" ++
          jsOr2 ((extractComponentInfo p.2).map ComponentInfo.name) p.2.component_name
            "Unknown component" ++
          (if jsOr2 ((extractComponentInfo p.2).bind ComponentInfo.version)
               p.2.component_version "" != "" then
            " version " ++
              jsOr2 ((extractComponentInfo p.2).bind ComponentInfo.version)
                p.2.component_version ""
          else "") ++ ", " ++
          (if p.2.severity != "" then p.2.severity else "Unknown") ++ ")")) ++
        "\n\n" ++ "Total count: " ++ toString findings.length := by
  have hne : findings ≠ [] := by
    intro h
    rw [h] at hlen
    simp at hlen
  have hgrp := groupByLocation_const findings loc hne hloc
  have hbeq : (findings.length == 1) = false := by
    simp only [beq_eq_false_iff_ne, ne_eq]
    omega
  rw [aggregateDependencyTrackFindings, hgrp]
  simp only [List.map_cons, List.map_nil, hbeq, Bool.false_eq_true, if_false]
  refine ⟨_, rfl, ?_, ?_⟩
  · rw [aggregatedFinding_title]
  · rw [aggregatedFinding_description]

theorem C6_aggregate_summary_witness :
    ∃ out, aggregateDependencyTrackFindings
        ([Finding.mk 1 "t1" "d1" "High" none "" "a" none true false false false false 0 0
               (some "libA") (some "1.0") none none none,
             Finding.mk 2 "t2" "d2" "Low" none "" "a" none true false false false false 0 0
               none none none none none]) = [out] ∧
      out.title = "[Aggregated] " ++
        (if (List.headI ([Finding.mk 1 "t1" "d1" "High" none "" "a" none true false false false false 0 0
               (some "libA") (some "1.0") none none none,
             Finding.mk 2 "t2" "d2" "Low" none "" "a" none true false false false false 0 0
               none none none none none])).title != "" then
          (List.headI ([Finding.mk 1 "t1" "d1" "High" none "" "a" none true false false false false 0 0
               (some "libA") (some "1.0") none none none,
             Finding.mk 2 "t2" "d2" "Low" none "" "a" none true false false false false 0 0
               none none none none none])).title
         else "Finding") ∧
      out.description =
        "Aggregated finding for Location: " ++ "a" ++ "\n\n" ++
        "Includes the following findings:\n" ++
        String.intercalate "\n" ((List.enum ([Finding.mk 1 "t1" "d1" "High" none "" "a" none true false false false false 0 0
               (some "libA") (some "1.0") none none none,
             Finding.mk 2 "t2" "d2" "Low" none "" "a" none true false false false false 0 0
               none none none none none])).map (fun p =>
          toString (p.1 + 1) ++ ". " ++
          (if p.2.title != "" then p.2.title else "Finding #" ++ toString p.2.id) ++
          " (" ++
          jsOr2 ((extractComponentInfo p.2).map ComponentInfo.name) p.2.component_name
            "Unknown component" ++
          (if jsOr2 ((extractComponentInfo p.2).bind ComponentInfo.version)
               p.2.component_version "" != "" then
            " version " ++
              jsOr2 ((extractComponentInfo p.2).bind ComponentInfo.version)
                p.2.component_version ""
          else "") ++ ", " ++
          (if p.2.severity != "" then p.2.severity else "Unknown") ++ ")")) ++
        "\n\n" ++ "Total count: " ++ toString (List.length ([Finding.mk 1 "t1" "d1" "High" none "" "a" none true false false false false 0 0
               (some "libA") (some "1.0") none none none,
             Finding.mk 2 "t2" "d2" "Low" none "" "a" none true false false false false 0 0
               none none none none none])) :=
  C6_aggregate_summary ([Finding.mk 1 "t1" "d1" "High" none "" "a" none true false false false false 0 0
               (some "libA") (some "1.0") none none none,
             Finding.mk 2 "t2" "d2" "Low" none "" "a" none true false false false false 0 0
               none none none none none]) "a" (by decide) (by decide)

theorem searchInDirectory_too_deep (name : String) (version : Option String)
    (maxDepth : Nat) (dirPath relativePath : String) (depth : Nat)
    (entries : FsEntries) (h : depth > maxDepth) :
    searchInDirectory name version maxDepth dirPath relativePath depth entries = [] := by
  simp [searchInDirectory, h]

theorem nest_beyond_depth (name : String) (version : Option String) (maxDepth : Nat)
    (inner : FsEntries) :
    ∀ (k depth : Nat) (dirPath relativePath : String), maxDepth < depth + k →
      searchInDirectory name version maxDepth dirPath relativePath depth
        (nestDirs k inner) = [] := by
  intro k
  induction k with
  | zero =>
    intro depth dp rp h
    exact searchInDirectory_too_deep _ _ _ _ _ _ _ (by omega)
  | succ k ih =>
    intro depth dp rp h
    rw [searchInDirectory]
    by_cases hd : depth > maxDepth
    · simp [hd]
    · have hrec := ih (depth + 1) (joinPath dp "d") (joinPath rp "d") (by omega)
      rw [searchInDirectory] at hrec
      have hskip : (jsStartsWith "d" "." || ("d" == "node_modules" : Bool) ||
          ("d" == "vendor" : Bool)) = false := by decide
      simp only [hd, if_false, nestDirs, searchEntriesIn, hskip, Bool.false_eq_true]
      simp only [Bool.or_eq_true, beq_iff_eq] at hskip
      simp [jsStartsWith, hrec]

/-- C7: the dependency search never produces a result from below the maximum
depth: for every inner tree placed behind more than maxDepth nested
directories the search returns nothing, while the fixture whose yarn.lock
sits exactly 15 directories below the root is scanned under the default
depth 15 and yields results. -/
theorem C7_depth_limit (inner : FsEntries) (name : String) (version : Option String)
    (maxDepth k : Nat) (hk : maxDepth < k) :
    findDependencyInProject name [("/w", nestDirs k inner)] version maxDepth = [] ∧
    findDependencyInProject "foo" [("/w", nestDirs 15 depthFixture)] none 15 ≠ [] := by
  constructor
  · have h := nest_beyond_depth name version maxDepth inner k 0 "/w" "" (by omega)
    simpa [findDependencyInProject] using h
  · decide

theorem C7_depth_limit_witness :
    findDependencyInProject "foo" [("/w", nestDirs 16 depthFixture)] none 15 = [] ∧
    findDependencyInProject "foo" [("/w", nestDirs 15 depthFixture)] none 15 ≠ [] :=
  ⟨(C7_depth_limit depthFixture "foo" none 15 16 (by omega)).1,
   (C7_depth_limit depthFixture "foo" none 15 16 (by omega)).2⟩

/-- C8 fails against the claim and the claim matches the evident intent, so
the code is at fault: the block-scan version filter escapes the already
escaped version again, hence the compiled pattern demands the literal text
of the escaped version (for "1.0" the three characters 1 backslash-dot 0).
A yarn.lock block whose lines plainly contain the version substring "1.0"
yields nothing under the version constraint, while the same scan without a
version emits every line of the flushed block, and an unterminated trailing
block is flushed at end of file. -/
theorem C8_block_version_filter_bug :
    searchInFile "/w/yarn.lock" "yarn.lock" "yarn.lock" "foo" (some "1.0")
      "\"foo@1.0\":\n  version \"1.0\"\n\n" = [] ∧
    "1.0".data <:+: "\"foo@1.0\":".data ∧
    (searchInFile "/w/yarn.lock" "yarn.lock" "yarn.lock" "foo" none
      "\"foo@1.0\":\n  version \"1.0\"\n\n").length = 3 ∧
    (searchInFile "/w/yarn.lock" "yarn.lock" "yarn.lock" "foo" none
      "\"foo@1.0\":\n  version \"1.0\"").length = 3 ∧
    jsEscapeRegex "1.0" = "1\\.0" := by
  refine ⟨by decide, by decide, by decide, by decide, by decide⟩

end DD
